import Mathlib

/-!
# IOAPIC register interface (include/dev/ioapic.h)

A shallow embedding of the header: the register-index constants, the
redirection-entry bit masks and shifts, the device descriptor, and the two
inline accessors ioapic_write_reg and ioapic_read_reg, run against a model of
the memory-mapped chip (an index latch plus a bank of internal registers).
The operations whose bodies are not in the header (mask, unmask, program an
entry) are modelled from the specification on top of the two accessors.

Machine integers are natural numbers with explicit reduction modulo 2^w at the
places where C converts to a fixed-width type.
-/

/-! ## Constants of the header -/

/-- Capacity of the device table. -/
def MAX_IOAPICS : Nat := 32

/-- Default physical base address of the first IOAPIC. -/
def IOAPIC_DEFAULT_BASE : Nat := 0xfec00000

/-- MMIO byte offset of the I/O Register Select (index) register. -/
def IOREGSEL_REG : Nat := 0x00

/-- MMIO byte offset of the I/O Window (data) register. -/
def IOWIN_REG : Nat := 0x10

/-- Internal register index of the IOAPIC ID register. -/
def IOAPICID_REG : Nat := 0x00

/-- Internal register index of the IOAPIC Version register. -/
def IOAPICVER_REG : Nat := 0x01

/-- Internal register index of the IOAPIC Arbitration ID register. -/
def IOAPICARB_REG : Nat := 0x02

/-- Internal register index of the first word of the Redirection Table. -/
def IOREDTBL : Nat := 0x10

/-- Index of the low word of redirection entry n: (IOREDTBL + 2*(n)). -/
def IOAPIC_IRQ_ENTRY_LO (n : Nat) : Nat := IOREDTBL + 2 * n

/-- Index of the high word of redirection entry n: (IOREDTBL + (2*(n))+1). -/
def IOAPIC_IRQ_ENTRY_HI (n : Nat) : Nat := IOREDTBL + (2 * n) + 1

/-- Vector mask of the low word, as the header defines it. -/
def IORED_VEC_MASK : Nat := 0xffff

/-- Delivery-mode mask: (0x7 << 8). -/
def IORED_DEL_MODE_MASK : Nat := 0x7 <<< 8

/-- Destination-mode bit: (1 << 11). -/
def IORED_DEST_MODE : Nat := 1 <<< 11

/-- Delivery-status bit: (1 << 12). -/
def IORED_DELIVS : Nat := 1 <<< 12

/-- Pin-polarity bit: (1 << 13). -/
def IORED_INTPOL : Nat := 1 <<< 13

/-- Trigger-mode bit: (1 << 15). -/
def IORED_TRIGGER_MODE : Nat := 1 <<< 15

/-- Interrupt-mask bit: (1 << 16). -/
def IORED_INT_MASK : Nat := 1 <<< 16

def DEL_MODE_SHIFT : Nat := 8
def DEST_MODE_SHIFT : Nat := 11
def DELIVS_SHIFT : Nat := 12
def INTPOL_SHIFT : Nat := 13
def TRIG_MODE_SHIFT : Nat := 15
def INT_MASK_SHIFT : Nat := 16

/-- Destination mask of the high word in physical destination mode. -/
def IORED_DST_MASK_PHY : Nat := 0x0f000000

/-- Destination mask of the high word in logical destination mode. -/
def IORED_DST_MASK_LOG : Nat := 0xff000000

def DELMODE_FIXED : Nat := 0x0
def DELMODE_LOWEST : Nat := 0x1
def DELMODE_SMI : Nat := 0x2
def DELMODE_RSVD : Nat := 0x3
def DELMODE_NMI : Nat := 0x4
def DELMODE_INIT : Nat := 0x5
def DELMODE_RSVD1 : Nat := 0x6
def DELMODE_EXTINT : Nat := 0x7

def PIN_POLARITY_HI : Nat := 0
def PIN_POLARITY_LO : Nat := 1

def TRIGGER_MODE_EDGE : Nat := 0
def TRIGGER_MODE_LEVEL : Nat := 1

/-- Mask bit used by the mask and unmask operations: (1 << 16). -/
def IOAPIC_MASK_IRQ : Nat := 1 <<< 16

/-- The eight delivery-mode codes of the header, in numeric order. -/
def DELMODE_CODES : List Nat :=
  [DELMODE_FIXED, DELMODE_LOWEST, DELMODE_SMI, DELMODE_RSVD,
   DELMODE_NMI, DELMODE_INIT, DELMODE_RSVD1, DELMODE_EXTINT]

/-! ## Fixed-width conversions -/

/-- Conversion of an integer value to uint8_t. -/
def uint8_t (x : Nat) : Nat := x % 2 ^ 8

/-- Conversion of an integer value to uint32_t. -/
def uint32_t (x : Nat) : Nat := x % 2 ^ 32

/-! ## Device descriptor and memory-mapped chip -/

/-- Device descriptor (struct ioapic): three uint8_t fields and the base
address of the register window. -/
structure ioapic where
  id : Nat
  version : Nat
  usable : Nat
  base : Nat

/-- One volatile 32-bit bus access issued by the driver. -/
inductive Access where
  | store (addr val : Nat)
  | load (addr : Nat)
deriving DecidableEq, Repr

/-- Platform state the accessors run against. The header takes addr_t from
types.h, so its width is a field here (addrBits). The chip decodes a register
window at address window: the index latch (IOREGSEL) at the window address and
the data port (IOWIN) 0x10 bytes above it. The chip itself is the index/data
register pair of the IOAPIC: an index latch that selects an internal register
number and a bank of internal 32-bit registers reached through the data port.
The field trace records every volatile access in program order. -/
structure Machine where
  addrBits : Nat
  window : Nat
  index : Nat
  regs : Nat → Nat
  trace : List Access

/-- Address of the data port of the chip, in addr_t arithmetic. -/
def Machine.dataAddr (m : Machine) : Nat := (m.window + IOWIN_REG) % 2 ^ m.addrBits

/-- Volatile 32-bit store: it is recorded in the trace; a store to the index
latch replaces the latch, a store to the data port replaces the internal
register the latch selects, any other address is outside the chip. -/
def Machine.store32 (m : Machine) (addr val : Nat) : Machine :=
  let v := uint32_t val
  let t := m.trace ++ [Access.store addr v]
  if addr = m.window then
    { m with index := v, trace := t }
  else if addr = m.dataAddr then
    { m with regs := fun r => if r = m.index then v else m.regs r, trace := t }
  else
    { m with trace := t }

/-- Volatile 32-bit load: it is recorded in the trace; a load from the data
port returns the internal register the latch selects, a load from the index
latch returns the latch, any other address is outside the chip and reads 0. -/
def Machine.load32 (m : Machine) (addr : Nat) : Nat × Machine :=
  let m1 := { m with trace := m.trace ++ [Access.load addr] }
  if addr = m.window then
    (uint32_t m.index, m1)
  else if addr = m.dataAddr then
    (uint32_t (m.regs m.index), m1)
  else
    (0, m1)

/-- The chip of machine m is the one descriptor dev points at, and addr_t is
wide enough (more than 4 bits) for base and base + 0x10 to be two addresses. -/
def Machine.decodes (m : Machine) (dev : ioapic) : Prop :=
  m.window = dev.base ∧ 4 < m.addrBits

/-- Every internal register of the chip holds a 32-bit value. -/
def Machine.regs32 (m : Machine) : Prop := ∀ r : Nat, m.regs r < 2 ^ 32

/-! ## The inline accessors -/

/-- Source function ioapic_write_reg: reg is converted to uint8_t and val to
uint32_t at the call, then reg is stored at base and val at base + IOWIN_REG. -/
def ioapic_write_reg (dev : ioapic) (reg val : Nat) (m : Machine) : Machine :=
  let reg := uint8_t reg
  let val := uint32_t val
  let m1 := m.store32 dev.base reg
  m1.store32 ((dev.base + IOWIN_REG) % 2 ^ m1.addrBits) val

/-- Source function ioapic_read_reg: reg is converted to uint8_t at the call
and stored at base, then the 32-bit word at base + IOWIN_REG is loaded and
returned. -/
def ioapic_read_reg (dev : ioapic) (reg : Nat) (m : Machine) : Nat × Machine :=
  let reg := uint8_t reg
  let m1 := m.store32 dev.base reg
  m1.load32 ((dev.base + IOWIN_REG) % 2 ^ m1.addrBits)

/-! ## Operations declared by the header whose bodies are elsewhere -/

/-- Complement of a word at type uint32_t (the C operator ~ on a 32-bit
operand). -/
def not32 (x : Nat) : Nat := (2 ^ 32 - 1) ^^^ uint32_t x

/-- Modelled from the spec: the header declares ioapic_mask_irq (void, with a
uint8_t irq) but its body is not in the header. Section 4.3: read the low word
of entry irq through the register access layer, set the interrupt-mask bit
(bit 16, IOAPIC_MASK_IRQ), write the low word back. The range precondition on
irq is an obligation of the caller and appears as a hypothesis where a theorem
needs it. -/
def ioapic_mask_irq (dev : ioapic) (irq : Nat) (m : Machine) : Machine :=
  let irq := uint8_t irq
  let r := ioapic_read_reg dev (IOAPIC_IRQ_ENTRY_LO irq) m
  ioapic_write_reg dev (IOAPIC_IRQ_ENTRY_LO irq) (r.1 ||| IOAPIC_MASK_IRQ) r.2

/-- Modelled from the spec: the header declares ioapic_unmask_irq but its body
is not in the header. Section 4.3: same read as ioapic_mask_irq, clear bit 16,
write the low word back. -/
def ioapic_unmask_irq (dev : ioapic) (irq : Nat) (m : Machine) : Machine :=
  let irq := uint8_t irq
  let r := ioapic_read_reg dev (IOAPIC_IRQ_ENTRY_LO irq) m
  ioapic_write_reg dev (IOAPIC_IRQ_ENTRY_LO irq) (r.1 &&& not32 IOAPIC_MASK_IRQ) r.2

/-- Modelled from the spec: code of physical destination mode (the header has
the destination-mode bit but no names for its two values; the data model lists
them as physical, logical). -/
def DESTMODE_PHYSICAL : Nat := 0

/-- Modelled from the spec: code of logical destination mode. -/
def DESTMODE_LOGICAL : Nat := 1

/-- Modelled from the spec: position of the destination field in the high word
(bits 24 to 31); the header has the two destination masks but no shift. -/
def DST_SHIFT : Nat := 24

/-- Modelled from the spec: low word of a redirection entry, each field placed
with the shift and mask constants of the header (pure encode function of the
design notes). The mask bit is left clear. -/
def ioapic_entry_lo (vector delmode destmode polarity trigger : Nat) : Nat :=
  (uint8_t vector &&& IORED_VEC_MASK) |||
  ((delmode <<< DEL_MODE_SHIFT) &&& IORED_DEL_MODE_MASK) |||
  ((destmode <<< DEST_MODE_SHIFT) &&& IORED_DEST_MODE) |||
  ((polarity <<< INTPOL_SHIFT) &&& IORED_INTPOL) |||
  ((trigger <<< TRIG_MODE_SHIFT) &&& IORED_TRIGGER_MODE)

/-- Modelled from the spec: high word of a redirection entry, the destination
placed at bits 24 to 31 and cut to 4 bits in physical mode, 8 bits in logical
mode. -/
def ioapic_entry_hi (destmode dest : Nat) : Nat :=
  (dest <<< DST_SHIFT) &&&
    (if destmode = DESTMODE_PHYSICAL then IORED_DST_MASK_PHY else IORED_DST_MASK_LOG)

/-- Modelled from the spec: number of redirection entries a device supports.
Section 4.2: the maximum redirection-entry index is encoded in the upper half
of the Version register (index 0x01); the supported irqs are those up to that
index. The header has no constant or field for it. -/
def ioapic_entries_supported (m : Machine) : Nat :=
  (uint32_t (m.regs IOAPICVER_REG) >>> 16) + 1

/-- Modelled from the spec: the bits of the low word that the program-entry
operation sets, by the bit layout contract: vector (bits 0 to 7), delivery
mode (bits 8 to 10), destination mode (bit 11), polarity (bit 13) and trigger
mode (bit 15). Delivery status (bit 12), remote IRR (bit 14), the mask bit
(bit 16) and bits 17 to 31 are not among them. The vector field is taken from
the bit layout contract because the header constant IORED_VEC_MASK is wider
than the field. -/
def IORED_PROGRAMMED_LO : Nat :=
  0xff ||| IORED_DEL_MODE_MASK ||| IORED_DEST_MODE ||| IORED_INTPOL ||| IORED_TRIGGER_MODE

/-- Modelled from the spec: argument validation of the program-entry operation
(section 7, caller-contract errors): the irq is within the supported range of
the device, the vector is not one of the reserved vectors 0 to 15, and every
field value fits its field. -/
def ioapic_entry_args_valid (m : Machine)
    (irq vector delmode destmode polarity trigger dest : Nat) : Bool :=
  decide (irq < ioapic_entries_supported m) && decide (16 ≤ vector) &&
  decide (delmode ≤ DELMODE_EXTINT) && decide (destmode ≤ DESTMODE_LOGICAL) &&
  decide (polarity ≤ PIN_POLARITY_LO) && decide (trigger ≤ TRIGGER_MODE_LEVEL) &&
  decide (dest ≤ (if destmode = DESTMODE_PHYSICAL then 0xf else 0xff))

/-- Modelled from the spec: the program-entry operation of section 6
(device, irq, vector, delivery mode, destination mode, polarity, trigger mode,
destination) is not in the header. Section 7: the arguments are validated
before any register write, and an invalid call is signalled (none) without
touching the chip. Section 4.3: the operation has the same read-modify-write
discipline as mask and unmask, over both words, each written independently:
the low word is read, the programmed fields are replaced by the encoded ones,
the word is written back; then the same for the destination field (bits 24 to
31) of the high word. All accesses go through ioapic_read_reg and
ioapic_write_reg. The irq and the vector are 8-bit arguments. -/
def ioapic_program_entry (dev : ioapic) (irq vector delmode destmode polarity trigger dest : Nat)
    (m : Machine) : Option Machine :=
  let irq := uint8_t irq
  let vector := uint8_t vector
  if ioapic_entry_args_valid m irq vector delmode destmode polarity trigger dest = true then
    let lo := ioapic_read_reg dev (IOAPIC_IRQ_ENTRY_LO irq) m
    let m1 := ioapic_write_reg dev (IOAPIC_IRQ_ENTRY_LO irq)
      ((lo.1 &&& not32 IORED_PROGRAMMED_LO) |||
        ioapic_entry_lo vector delmode destmode polarity trigger) lo.2
    let hi := ioapic_read_reg dev (IOAPIC_IRQ_ENTRY_HI irq) m1
    some (ioapic_write_reg dev (IOAPIC_IRQ_ENTRY_HI irq)
      ((hi.1 &&& not32 IORED_DST_MASK_LOG) ||| ioapic_entry_hi destmode dest) hi.2)
  else
    none

/-! ## Sample inputs -/

/-- A descriptor at the default base address. -/
def sample_dev : ioapic := { id := 0, version := 0x11, usable := 1, base := IOAPIC_DEFAULT_BASE }

/-- A 64-bit machine whose chip sits at the default base, with entry 0 masked
and carrying vector 0x30, entry 1 unmasked, and the version register set. -/
def sample_machine : Machine :=
  { addrBits := 64
    window := 0xfec00000
    index := 0
    regs := fun r =>
      if r = 0x01 then 0x00170011
      else if r = 0x10 then 0x00010030
      else if r = 0x11 then 0x01000000
      else if r = 0x12 then 0x00000831
      else 0
    trace := [] }

/-- A 64-bit machine whose chip reports 200 redirection entries (maximum entry
index 199 in the upper half of the Version register), with entry 1 unmasked. -/
def wide_machine : Machine :=
  { addrBits := 64
    window := 0xfec00000
    index := 0
    regs := fun r =>
      if r = 0x01 then 0x00c70011
      else if r = 0x12 then 0x00000831
      else 0
    trace := [] }

/-! ## Theorems -/

/-- Bits of a number below 2^32 at positions 32 and above are clear. -/
theorem testBit_high_false (n i : Nat) (hn : n < 2 ^ 32) (hi : 32 ≤ i) :
    n.testBit i = false := by
  apply Nat.testBit_lt_two_pow
  exact lt_of_lt_of_le hn (Nat.pow_le_pow_right (by decide) hi)

/-- A 32-bit constant has exactly the bits a predicate names once the two agree
on positions 0 to 31 and the predicate is false from position 32 on. -/
theorem testBit_eq_of_low32 (n : Nat) (p : Nat → Bool) (hn : n < 2 ^ 32)
    (hlo : ∀ i : Fin 32, n.testBit i.val = p i.val)
    (hhi : ∀ i : Nat, 32 ≤ i → p i = false) (i : Nat) : n.testBit i = p i := by
  by_cases hi : i < 32
  · exact hlo ⟨i, hi⟩
  · rw [testBit_high_false n i hn (by omega), hhi i (by omega)]

/-- C3: the internal index space. ID, Version and Arbitration ID are indices
0, 1 and 2; the low and high words of redirection entry n are at 0x10 + 2n and
0x10 + 2n + 1, so the high word follows the low word and the next entry follows
the high word. -/
theorem index_space_layout :
    IOAPICID_REG = 0x00 ∧ IOAPICVER_REG = 0x01 ∧ IOAPICARB_REG = 0x02 ∧
    ∀ n : Nat,
      IOAPIC_IRQ_ENTRY_LO n = 0x10 + 2 * n ∧
      IOAPIC_IRQ_ENTRY_HI n = 0x10 + 2 * n + 1 ∧
      IOAPIC_IRQ_ENTRY_HI n = IOAPIC_IRQ_ENTRY_LO n + 1 ∧
      IOAPIC_IRQ_ENTRY_LO (n + 1) = IOAPIC_IRQ_ENTRY_HI n + 1 := by
  refine ⟨rfl, rfl, rfl, ?_⟩
  intro n
  unfold IOAPIC_IRQ_ENTRY_LO IOAPIC_IRQ_ENTRY_HI IOREDTBL
  refine ⟨by omega, by omega, by omega, by omega⟩

/-- C4 (evaluation of the header at the failing input): the vector mask of the
header is 0xffff, so it also selects bits 8 to 15. On the low word 0x00000100
(vector byte zero, delivery-mode bit 8 set) masking with IORED_VEC_MASK leaves
0x100 although the word modulo 256 is 0; the mask overlaps the delivery-mode
mask, the destination-mode bit and the trigger-mode bit defined next to it. -/
theorem vec_mask_selects_beyond_vector_byte :
    IORED_VEC_MASK = 0xffff ∧
    0x00000100 &&& IORED_VEC_MASK = 0x100 ∧
    0x00000100 % 256 = 0 ∧
    0x00000100 &&& IORED_VEC_MASK ≠ 0x00000100 % 256 ∧
    IORED_VEC_MASK.testBit 8 = true ∧
    IORED_VEC_MASK &&& IORED_DEL_MODE_MASK = IORED_DEL_MODE_MASK ∧
    IORED_VEC_MASK &&& IORED_DEST_MODE = IORED_DEST_MODE ∧
    IORED_VEC_MASK &&& IORED_TRIGGER_MODE = IORED_TRIGGER_MODE := by
  decide

/-- C5: the non-vector fields of the low word are bit-exact. The delivery-mode
mask is exactly bits 8 to 10, the destination-mode, delivery-status, polarity,
trigger-mode and interrupt-mask constants are exactly bits 11, 12, 13, 15 and
16, each single-bit constant is 1 shifted left by its shift constant,
IOAPIC_MASK_IRQ is the interrupt-mask bit, and every delivery-mode code m in
0..7 shifted left by DEL_MODE_SHIFT stays inside the delivery-mode mask and
shifts back to m. -/
theorem low_word_fields_bit_exact :
    (∀ i : Nat, IORED_DEL_MODE_MASK.testBit i = decide (8 ≤ i ∧ i ≤ 10)) ∧
    (∀ i : Nat, IORED_DEST_MODE.testBit i = decide (i = 11)) ∧
    (∀ i : Nat, IORED_DELIVS.testBit i = decide (i = 12)) ∧
    (∀ i : Nat, IORED_INTPOL.testBit i = decide (i = 13)) ∧
    (∀ i : Nat, IORED_TRIGGER_MODE.testBit i = decide (i = 15)) ∧
    (∀ i : Nat, IORED_INT_MASK.testBit i = decide (i = 16)) ∧
    IOAPIC_MASK_IRQ = IORED_INT_MASK ∧
    IORED_DEST_MODE = 1 <<< DEST_MODE_SHIFT ∧
    IORED_DELIVS = 1 <<< DELIVS_SHIFT ∧
    IORED_INTPOL = 1 <<< INTPOL_SHIFT ∧
    IORED_TRIGGER_MODE = 1 <<< TRIG_MODE_SHIFT ∧
    IORED_INT_MASK = 1 <<< INT_MASK_SHIFT ∧
    DELMODE_CODES = [0, 1, 2, 3, 4, 5, 6, 7] ∧
    (∀ m : Fin 8,
      (m.val <<< DEL_MODE_SHIFT) &&& IORED_DEL_MODE_MASK = m.val <<< DEL_MODE_SHIFT ∧
      (m.val <<< DEL_MODE_SHIFT) >>> DEL_MODE_SHIFT = m.val) := by
  refine ⟨?_, ?_, ?_, ?_, ?_, ?_, rfl, rfl, rfl, rfl, rfl, rfl, rfl, by decide⟩
  · exact testBit_eq_of_low32 _ (fun i => decide (8 ≤ i ∧ i ≤ 10)) (by decide) (by decide)
      (fun i hi => by simp; omega)
  · exact testBit_eq_of_low32 _ (fun i => decide (i = 11)) (by decide) (by decide)
      (fun i hi => by simp; omega)
  · exact testBit_eq_of_low32 _ (fun i => decide (i = 12)) (by decide) (by decide)
      (fun i hi => by simp; omega)
  · exact testBit_eq_of_low32 _ (fun i => decide (i = 13)) (by decide) (by decide)
      (fun i hi => by simp; omega)
  · exact testBit_eq_of_low32 _ (fun i => decide (i = 15)) (by decide) (by decide)
      (fun i hi => by simp; omega)
  · exact testBit_eq_of_low32 _ (fun i => decide (i = 16)) (by decide) (by decide)
      (fun i hi => by simp; omega)

set_option maxRecDepth 20000 in
/-- C6: the destination field of the high word. The logical mask is exactly
bits 24 to 31, the physical mask is exactly bits 24 to 27, the physical mask is
contained in the logical mask, and for every 8-bit destination d the logical
mask keeps d << 24 whole while the physical mask keeps (d mod 16) << 24. -/
theorem destination_masks_bit_exact :
    (∀ i : Nat, IORED_DST_MASK_LOG.testBit i = decide (24 ≤ i ∧ i ≤ 31)) ∧
    (∀ i : Nat, IORED_DST_MASK_PHY.testBit i = decide (24 ≤ i ∧ i ≤ 27)) ∧
    IORED_DST_MASK_PHY &&& IORED_DST_MASK_LOG = IORED_DST_MASK_PHY ∧
    (∀ d : Fin 256,
      (d.val <<< 24) &&& IORED_DST_MASK_LOG = d.val <<< 24 ∧
      (d.val <<< 24) &&& IORED_DST_MASK_PHY = (d.val % 16) <<< 24) := by
  refine ⟨?_, ?_, by decide, by decide⟩
  · exact testBit_eq_of_low32 _ (fun i => decide (24 ≤ i ∧ i ≤ 31)) (by decide) (by decide)
      (fun i hi => by simp; omega)
  · exact testBit_eq_of_low32 _ (fun i => decide (24 ≤ i ∧ i ≤ 27)) (by decide) (by decide)
      (fun i hi => by simp; omega)

/-! ## Register access layer -/

/-- Index and data port of a decoded chip have different addresses. -/
theorem dataAddr_ne_base (dev : ioapic) (m : Machine) (hdec : m.decodes dev) :
    (dev.base + IOWIN_REG) % 2 ^ m.addrBits ≠ dev.base := by
  obtain ⟨_, haw⟩ := hdec
  have h32 : 2 ^ 5 ≤ 2 ^ m.addrBits := Nat.pow_le_pow_right (by decide) haw
  have hpos : 0 < 2 ^ m.addrBits := by positivity
  unfold IOWIN_REG
  intro h
  rcases Nat.lt_or_ge dev.base (2 ^ m.addrBits) with hb | hb
  · rcases Nat.lt_or_ge (dev.base + 0x10) (2 ^ m.addrBits) with hs | hs
    · rw [Nat.mod_eq_of_lt hs] at h
      omega
    · have h2 : dev.base + 0x10 - 2 ^ m.addrBits < 2 ^ m.addrBits := by
        norm_num at h32 ⊢
        omega
      rw [Nat.mod_eq_sub_mod hs, Nat.mod_eq_of_lt h2] at h
      norm_num at h32
      omega
  · have := Nat.mod_lt (dev.base + 0x10) hpos
    omega

/-- State after ioapic_write_reg on a decoded chip, field by field. -/
theorem ioapic_write_reg_eq (dev : ioapic) (m : Machine) (reg val : Nat)
    (hdec : m.decodes dev) :
    ioapic_write_reg dev reg val m =
      { m with
        index := uint8_t reg
        regs := fun r => if r = uint8_t reg then uint32_t val else m.regs r
        trace := m.trace ++ [Access.store dev.base (uint8_t reg),
          Access.store ((dev.base + IOWIN_REG) % 2 ^ m.addrBits) (uint32_t val)] } := by
  have hne := dataAddr_ne_base dev m hdec
  obtain ⟨hw, _⟩ := hdec
  have h8 : uint32_t (uint8_t reg) = uint8_t reg := by
    unfold uint32_t uint8_t
    omega
  have h32 : uint32_t (uint32_t val) = uint32_t val := by
    unfold uint32_t
    omega
  simp [ioapic_write_reg, Machine.store32, Machine.dataAddr, hw, hne, h8, h32]

/-- Result of ioapic_read_reg on a decoded chip, field by field. -/
theorem ioapic_read_reg_eq (dev : ioapic) (m : Machine) (reg : Nat)
    (hdec : m.decodes dev) :
    ioapic_read_reg dev reg m =
      (uint32_t (m.regs (uint8_t reg)),
       { m with
         index := uint8_t reg
         trace := m.trace ++ [Access.store dev.base (uint8_t reg),
           Access.load ((dev.base + IOWIN_REG) % 2 ^ m.addrBits)] }) := by
  have hne := dataAddr_ne_base dev m hdec
  obtain ⟨hw, _⟩ := hdec
  have h8 : uint32_t (uint8_t reg) = uint8_t reg := by
    unfold uint32_t uint8_t
    omega
  simp [ioapic_read_reg, Machine.store32, Machine.load32, Machine.dataAddr, hw, hne, h8]

/-- The sample machine decodes the sample descriptor. -/
theorem sample_decodes : sample_machine.decodes sample_dev :=
  ⟨rfl, by decide⟩

/-- C1: for every device, 8-bit register offset reg and 32-bit value val,
ioapic_write_reg issues exactly two stores, in this order: reg to the Index
register at base + 0x00, then val to the Data register at base + 0x10 (in
addr_t arithmetic). On the chip the descriptor points at, the Index register
then holds reg and internal register reg holds val; no other internal register
changes. -/
theorem ioapic_write_reg_two_stores (dev : ioapic) (m : Machine) (reg val : Nat)
    (hdec : m.decodes dev) (hreg : reg < 2 ^ 8) (hval : val < 2 ^ 32) :
    (ioapic_write_reg dev reg val m).trace =
        m.trace ++ [Access.store (dev.base + IOREGSEL_REG) reg,
                    Access.store ((dev.base + IOWIN_REG) % 2 ^ m.addrBits) val] ∧
    (ioapic_write_reg dev reg val m).index = reg ∧
    (ioapic_write_reg dev reg val m).regs reg = val ∧
    (∀ r : Nat, r ≠ reg → (ioapic_write_reg dev reg val m).regs r = m.regs r) := by
  have h8 : uint8_t reg = reg := Nat.mod_eq_of_lt hreg
  have h32 : uint32_t val = val := Nat.mod_eq_of_lt hval
  rw [ioapic_write_reg_eq dev m reg val hdec, h8, h32]
  refine ⟨by simp [IOREGSEL_REG], rfl, by simp, ?_⟩
  intro r hr
  simp [hr]

/-- C1 at a concrete input: writing 0x00010031 to register 0x12 of the sample
machine. -/
theorem ioapic_write_reg_two_stores_witness :
    sample_machine.decodes sample_dev ∧ 0x12 < 2 ^ 8 ∧ 0x00010031 < 2 ^ 32 ∧
    (ioapic_write_reg sample_dev 0x12 0x00010031 sample_machine).trace =
        sample_machine.trace ++ [Access.store (sample_dev.base + IOREGSEL_REG) 0x12,
          Access.store ((sample_dev.base + IOWIN_REG) % 2 ^ sample_machine.addrBits)
            0x00010031] ∧
    (ioapic_write_reg sample_dev 0x12 0x00010031 sample_machine).index = 0x12 ∧
    (ioapic_write_reg sample_dev 0x12 0x00010031 sample_machine).regs 0x12 = 0x00010031 :=
  ⟨sample_decodes, by decide, by decide,
    (ioapic_write_reg_two_stores sample_dev sample_machine 0x12 0x00010031
      sample_decodes (by decide) (by decide)).1,
    (ioapic_write_reg_two_stores sample_dev sample_machine 0x12 0x00010031
      sample_decodes (by decide) (by decide)).2.1,
    (ioapic_write_reg_two_stores sample_dev sample_machine 0x12 0x00010031
      sample_decodes (by decide) (by decide)).2.2.1⟩

/-- C2: for every device state and 8-bit register offset reg, ioapic_read_reg
writes reg to the Index register and returns the 32-bit content of the
internal register selected by reg. The result is a plain value (the function
has no error result), the accesses are one store to the Index register
followed by one load from the Data register, and every internal register holds
the same value after the call as before. -/
theorem ioapic_read_reg_frame (dev : ioapic) (m : Machine) (reg : Nat)
    (hdec : m.decodes dev) (hregs : m.regs32) (hreg : reg < 2 ^ 8) :
    (ioapic_read_reg dev reg m).1 = m.regs reg ∧
    (ioapic_read_reg dev reg m).2.index = reg ∧
    (ioapic_read_reg dev reg m).2.regs = m.regs ∧
    (ioapic_read_reg dev reg m).2.trace =
        m.trace ++ [Access.store (dev.base + IOREGSEL_REG) reg,
                    Access.load ((dev.base + IOWIN_REG) % 2 ^ m.addrBits)] := by
  have h8 : uint8_t reg = reg := Nat.mod_eq_of_lt hreg
  have h32 : uint32_t (m.regs reg) = m.regs reg := Nat.mod_eq_of_lt (hregs reg)
  rw [ioapic_read_reg_eq dev m reg hdec, h8, h32]
  exact ⟨rfl, rfl, rfl, by simp [IOREGSEL_REG]⟩

/-- Every register of the sample machine holds a 32-bit value. -/
theorem sample_regs32 : sample_machine.regs32 := by
  intro r
  simp only [sample_machine]
  split_ifs <;> decide

/-- C2 at a concrete input: reading the Version register of the sample
machine. -/
theorem ioapic_read_reg_frame_witness :
    sample_machine.decodes sample_dev ∧ sample_machine.regs32 ∧ IOAPICVER_REG < 2 ^ 8 ∧
    (ioapic_read_reg sample_dev IOAPICVER_REG sample_machine).1 =
        sample_machine.regs IOAPICVER_REG ∧
    (ioapic_read_reg sample_dev IOAPICVER_REG sample_machine).2.index = IOAPICVER_REG ∧
    (ioapic_read_reg sample_dev IOAPICVER_REG sample_machine).2.regs = sample_machine.regs ∧
    (ioapic_read_reg sample_dev IOAPICVER_REG sample_machine).2.trace =
        sample_machine.trace ++ [Access.store (sample_dev.base + IOREGSEL_REG) IOAPICVER_REG,
          Access.load ((sample_dev.base + IOWIN_REG) % 2 ^ sample_machine.addrBits)] :=
  ⟨sample_decodes, sample_regs32, by decide,
    ioapic_read_reg_frame sample_dev sample_machine IOAPICVER_REG
      sample_decodes sample_regs32 (by decide)⟩

/-! ## Mask and unmask -/

/-- Value returned by ioapic_read_reg on a decoded chip. -/
theorem ioapic_read_reg_val (dev : ioapic) (m : Machine) (reg : Nat) (hdec : m.decodes dev) :
    (ioapic_read_reg dev reg m).1 = uint32_t (m.regs (uint8_t reg)) := by
  rw [ioapic_read_reg_eq dev m reg hdec]

/-- A read of register reg, followed by a write of f applied to the value read
to the same register: the state that results on a decoded chip. -/
theorem read_modify_write_eq (dev : ioapic) (m : Machine) (reg : Nat) (f : Nat → Nat)
    (hdec : m.decodes dev) :
    ioapic_write_reg dev reg (f (ioapic_read_reg dev reg m).1) (ioapic_read_reg dev reg m).2 =
      { m with
        index := uint8_t reg
        regs := fun r =>
          if r = uint8_t reg then uint32_t (f (uint32_t (m.regs (uint8_t reg)))) else m.regs r
        trace := m.trace ++ [Access.store dev.base (uint8_t reg),
          Access.load ((dev.base + IOWIN_REG) % 2 ^ m.addrBits),
          Access.store dev.base (uint8_t reg),
          Access.store ((dev.base + IOWIN_REG) % 2 ^ m.addrBits)
            (uint32_t (f (uint32_t (m.regs (uint8_t reg)))))] } := by
  have hdec2 : (ioapic_read_reg dev reg m).2.decodes dev := by
    rw [ioapic_read_reg_eq dev m reg hdec]
    exact hdec
  rw [ioapic_write_reg_eq dev _ reg _ hdec2, ioapic_read_reg_eq dev m reg hdec]
  simp

/-- State after ioapic_mask_irq on a decoded chip. -/
theorem ioapic_mask_irq_eq (dev : ioapic) (m : Machine) (irq : Nat) (hdec : m.decodes dev) :
    ioapic_mask_irq dev irq m =
      { m with
        index := uint8_t (IOAPIC_IRQ_ENTRY_LO (uint8_t irq))
        regs := fun r =>
          if r = uint8_t (IOAPIC_IRQ_ENTRY_LO (uint8_t irq)) then
            uint32_t (uint32_t (m.regs (uint8_t (IOAPIC_IRQ_ENTRY_LO (uint8_t irq)))) |||
              IOAPIC_MASK_IRQ)
          else m.regs r
        trace := m.trace ++ [Access.store dev.base (uint8_t (IOAPIC_IRQ_ENTRY_LO (uint8_t irq))),
          Access.load ((dev.base + IOWIN_REG) % 2 ^ m.addrBits),
          Access.store dev.base (uint8_t (IOAPIC_IRQ_ENTRY_LO (uint8_t irq))),
          Access.store ((dev.base + IOWIN_REG) % 2 ^ m.addrBits)
            (uint32_t (uint32_t (m.regs (uint8_t (IOAPIC_IRQ_ENTRY_LO (uint8_t irq)))) |||
              IOAPIC_MASK_IRQ))] } :=
  read_modify_write_eq dev m (IOAPIC_IRQ_ENTRY_LO (uint8_t irq))
    (fun v => v ||| IOAPIC_MASK_IRQ) hdec

/-- State after ioapic_unmask_irq on a decoded chip. -/
theorem ioapic_unmask_irq_eq (dev : ioapic) (m : Machine) (irq : Nat) (hdec : m.decodes dev) :
    ioapic_unmask_irq dev irq m =
      { m with
        index := uint8_t (IOAPIC_IRQ_ENTRY_LO (uint8_t irq))
        regs := fun r =>
          if r = uint8_t (IOAPIC_IRQ_ENTRY_LO (uint8_t irq)) then
            uint32_t (uint32_t (m.regs (uint8_t (IOAPIC_IRQ_ENTRY_LO (uint8_t irq)))) &&&
              not32 IOAPIC_MASK_IRQ)
          else m.regs r
        trace := m.trace ++ [Access.store dev.base (uint8_t (IOAPIC_IRQ_ENTRY_LO (uint8_t irq))),
          Access.load ((dev.base + IOWIN_REG) % 2 ^ m.addrBits),
          Access.store dev.base (uint8_t (IOAPIC_IRQ_ENTRY_LO (uint8_t irq))),
          Access.store ((dev.base + IOWIN_REG) % 2 ^ m.addrBits)
            (uint32_t (uint32_t (m.regs (uint8_t (IOAPIC_IRQ_ENTRY_LO (uint8_t irq)))) &&&
              not32 IOAPIC_MASK_IRQ))] } :=
  read_modify_write_eq dev m (IOAPIC_IRQ_ENTRY_LO (uint8_t irq))
    (fun v => v &&& not32 IOAPIC_MASK_IRQ) hdec

/-- The mask constant is exactly bit 16. -/
theorem mask_irq_testBit (b : Nat) : IOAPIC_MASK_IRQ.testBit b = decide (b = 16) := by
  have h : IOAPIC_MASK_IRQ = 2 ^ 16 := by decide
  rw [h, Nat.testBit_two_pow]
  simp [eq_comm]

/-- The complement of the mask constant is every bit below 32 except bit 16. -/
theorem not32_mask_irq_testBit (b : Nat) :
    (not32 IOAPIC_MASK_IRQ).testBit b = (decide (b < 32) && !decide (b = 16)) := by
  have h : uint32_t IOAPIC_MASK_IRQ = 2 ^ 16 := by decide
  unfold not32
  rw [Nat.testBit_xor, Nat.testBit_two_pow_sub_one, h, Nat.testBit_two_pow]
  by_cases h1 : b < 32 <;> by_cases h2 : b = 16 <;> simp [h1, h2, eq_comm]

/-- A 32-bit conversion only keeps bits below 32. -/
theorem uint32_t_testBit (x b : Nat) :
    (uint32_t x).testBit b = (decide (b < 32) && x.testBit b) := by
  unfold uint32_t
  exact Nat.testBit_mod_two_pow x 32 b

/-- Setting bit 16 of a 32-bit value and converting to uint32_t. -/
theorem set_mask_testBit (v b : Nat) :
    (uint32_t (uint32_t v ||| IOAPIC_MASK_IRQ)).testBit b =
      (decide (b < 32) && (v.testBit b || decide (b = 16))) := by
  rw [uint32_t_testBit, Nat.testBit_or, uint32_t_testBit, mask_irq_testBit]
  by_cases h1 : b < 32 <;> simp [h1]

/-- Clearing bit 16 of a 32-bit value and converting to uint32_t. -/
theorem clear_mask_testBit (v b : Nat) :
    (uint32_t (uint32_t v &&& not32 IOAPIC_MASK_IRQ)).testBit b =
      (decide (b < 32) && (v.testBit b && !decide (b = 16))) := by
  rw [uint32_t_testBit, Nat.testBit_and, uint32_t_testBit, not32_mask_irq_testBit]
  by_cases h1 : b < 32 <;> simp [h1]

/-- A decoded chip stays decoded across ioapic_mask_irq. -/
theorem ioapic_mask_irq_decodes (dev : ioapic) (m : Machine) (irq : Nat)
    (hdec : m.decodes dev) : (ioapic_mask_irq dev irq m).decodes dev := by
  rw [ioapic_mask_irq_eq dev m irq hdec]
  exact hdec

/-- A decoded chip stays decoded across ioapic_unmask_irq. -/
theorem ioapic_unmask_irq_decodes (dev : ioapic) (m : Machine) (irq : Nat)
    (hdec : m.decodes dev) : (ioapic_unmask_irq dev irq m).decodes dev := by
  rw [ioapic_unmask_irq_eq dev m irq hdec]
  exact hdec

/-- Low word of the entry after ioapic_mask_irq. -/
theorem ioapic_mask_irq_low (dev : ioapic) (m : Machine) (irq : Nat) (hdec : m.decodes dev) :
    (ioapic_mask_irq dev irq m).regs (uint8_t (IOAPIC_IRQ_ENTRY_LO (uint8_t irq))) =
      uint32_t (uint32_t (m.regs (uint8_t (IOAPIC_IRQ_ENTRY_LO (uint8_t irq)))) |||
        IOAPIC_MASK_IRQ) := by
  rw [ioapic_mask_irq_eq dev m irq hdec]
  simp

/-- Low word of the entry after ioapic_unmask_irq. -/
theorem ioapic_unmask_irq_low (dev : ioapic) (m : Machine) (irq : Nat) (hdec : m.decodes dev) :
    (ioapic_unmask_irq dev irq m).regs (uint8_t (IOAPIC_IRQ_ENTRY_LO (uint8_t irq))) =
      uint32_t (uint32_t (m.regs (uint8_t (IOAPIC_IRQ_ENTRY_LO (uint8_t irq)))) &&&
        not32 IOAPIC_MASK_IRQ) := by
  rw [ioapic_unmask_irq_eq dev m irq hdec]
  simp

/-- The 8-bit conversion of the irq argument does not change the register the
low-word index selects. -/
theorem entry_lo_index_uint8 (irq : Nat) :
    uint8_t (IOAPIC_IRQ_ENTRY_LO (uint8_t irq)) = uint8_t (IOAPIC_IRQ_ENTRY_LO irq) := by
  unfold uint8_t IOAPIC_IRQ_ENTRY_LO IOREDTBL
  omega

/-- C8 (counterexample): entry 0 of the sample machine is masked, its low word
is 0x00010030. After unmask, mask, unmask the low word reads 0x00000030: the
value held before the first call is not restored. -/
theorem unmask_mask_unmask_loses_set_mask_bit :
    sample_machine.regs (IOAPIC_IRQ_ENTRY_LO 0) = 0x00010030 ∧
    (ioapic_read_reg sample_dev (IOAPIC_IRQ_ENTRY_LO 0) sample_machine).1 = 0x00010030 ∧
    (ioapic_read_reg sample_dev (IOAPIC_IRQ_ENTRY_LO 0)
      (ioapic_unmask_irq sample_dev 0
        (ioapic_mask_irq sample_dev 0
          (ioapic_unmask_irq sample_dev 0 sample_machine)))).1 = 0x00000030 ∧
    (ioapic_read_reg sample_dev (IOAPIC_IRQ_ENTRY_LO 0)
      (ioapic_unmask_irq sample_dev 0
        (ioapic_mask_irq sample_dev 0
          (ioapic_unmask_irq sample_dev 0 sample_machine)))).1 ≠
      (ioapic_read_reg sample_dev (IOAPIC_IRQ_ENTRY_LO 0) sample_machine).1 := by
  decide

/-- C8 (amended): for every device and irq, unmask followed by mask followed
by unmask leaves the low word of the entry equal to the value it held before
the first call with bit 16 cleared: bit 16 reads clear and every other bit is
as before. The value before the first call is restored exactly when its bit 16
was clear. -/
theorem unmask_mask_unmask_clears_bit16_only (dev : ioapic) (m : Machine) (irq : Nat)
    (hdec : m.decodes dev) :
    (ioapic_read_reg dev (IOAPIC_IRQ_ENTRY_LO irq)
      (ioapic_unmask_irq dev irq (ioapic_mask_irq dev irq (ioapic_unmask_irq dev irq m)))).1 =
        (ioapic_read_reg dev (IOAPIC_IRQ_ENTRY_LO irq) m).1 &&& not32 IOAPIC_MASK_IRQ ∧
    (ioapic_read_reg dev (IOAPIC_IRQ_ENTRY_LO irq)
      (ioapic_unmask_irq dev irq (ioapic_mask_irq dev irq (ioapic_unmask_irq dev irq m)))).1.testBit
        16 = false ∧
    (∀ b : Nat, b ≠ 16 →
      (ioapic_read_reg dev (IOAPIC_IRQ_ENTRY_LO irq)
        (ioapic_unmask_irq dev irq (ioapic_mask_irq dev irq
          (ioapic_unmask_irq dev irq m)))).1.testBit b =
        (ioapic_read_reg dev (IOAPIC_IRQ_ENTRY_LO irq) m).1.testBit b) ∧
    ((ioapic_read_reg dev (IOAPIC_IRQ_ENTRY_LO irq)
      (ioapic_unmask_irq dev irq (ioapic_mask_irq dev irq (ioapic_unmask_irq dev irq m)))).1 =
        (ioapic_read_reg dev (IOAPIC_IRQ_ENTRY_LO irq) m).1 ↔
      (ioapic_read_reg dev (IOAPIC_IRQ_ENTRY_LO irq) m).1.testBit 16 = false) := by
  have hd1 := ioapic_unmask_irq_decodes dev m irq hdec
  have hd2 := ioapic_mask_irq_decodes dev _ irq hd1
  have hd3 := ioapic_unmask_irq_decodes dev _ irq hd2
  have hafter :
      (ioapic_read_reg dev (IOAPIC_IRQ_ENTRY_LO irq)
        (ioapic_unmask_irq dev irq (ioapic_mask_irq dev irq
          (ioapic_unmask_irq dev irq m)))).1 =
        (ioapic_read_reg dev (IOAPIC_IRQ_ENTRY_LO irq) m).1 &&& not32 IOAPIC_MASK_IRQ := by
    rw [ioapic_read_reg_val dev _ _ hd3, ioapic_read_reg_val dev m _ hdec,
      ← entry_lo_index_uint8 irq, ioapic_unmask_irq_low dev _ irq hd2,
      ioapic_mask_irq_low dev _ irq hd1, ioapic_unmask_irq_low dev m irq hdec]
    apply Nat.eq_of_testBit_eq
    intro b
    rw [uint32_t_testBit, clear_mask_testBit, set_mask_testBit, clear_mask_testBit,
      Nat.testBit_and, uint32_t_testBit, not32_mask_irq_testBit]
    by_cases h1 : b < 32 <;> by_cases h2 : b = 16 <;> simp [h1, h2]
  rw [hafter]
  refine ⟨rfl, ?_, ?_, ?_⟩
  · rw [Nat.testBit_and, not32_mask_irq_testBit]
    simp
  · intro b hb
    rw [Nat.testBit_and, not32_mask_irq_testBit, ioapic_read_reg_val dev m _ hdec,
      uint32_t_testBit]
    by_cases h1 : b < 32 <;> simp [h1, hb]
  · constructor
    · intro h
      rw [← h, Nat.testBit_and, not32_mask_irq_testBit]
      simp
    · intro h
      apply Nat.eq_of_testBit_eq
      intro b
      rw [Nat.testBit_and, not32_mask_irq_testBit]
      by_cases h2 : b = 16
      · rw [h2, h]
        simp
      · rw [ioapic_read_reg_val dev m _ hdec, uint32_t_testBit]
        by_cases h1 : b < 32 <;> simp [h1, h2]

/-- C8 (amended) at a concrete input: entry 1 of the sample machine, whose
mask bit is clear, and the decoding hypothesis discharged. -/
theorem unmask_mask_unmask_clears_bit16_only_witness :
    sample_machine.decodes sample_dev ∧
    (ioapic_read_reg sample_dev (IOAPIC_IRQ_ENTRY_LO 1)
      (ioapic_unmask_irq sample_dev 1 (ioapic_mask_irq sample_dev 1
        (ioapic_unmask_irq sample_dev 1 sample_machine)))).1 =
        (ioapic_read_reg sample_dev (IOAPIC_IRQ_ENTRY_LO 1) sample_machine).1 &&&
          not32 IOAPIC_MASK_IRQ ∧
    (ioapic_read_reg sample_dev (IOAPIC_IRQ_ENTRY_LO 1)
      (ioapic_unmask_irq sample_dev 1 (ioapic_mask_irq sample_dev 1
        (ioapic_unmask_irq sample_dev 1 sample_machine)))).1 = 0x00000831 :=
  ⟨sample_decodes,
    (unmask_mask_unmask_clears_bit16_only sample_dev sample_machine 1 sample_decodes).1,
    by decide⟩

/-- The 8-bit conversion of an index reached without truncation is the index:
low words of the irqs below 120. -/
theorem entry_lo_index_exact (irq : Nat) (hirq : irq < 120) :
    uint8_t (IOAPIC_IRQ_ENTRY_LO irq) = IOAPIC_IRQ_ENTRY_LO irq := by
  unfold uint8_t IOAPIC_IRQ_ENTRY_LO IOREDTBL
  omega

/-- C7 (counterexample): the wide machine reports 200 supported entries, so
irq 129 is within its supported range. The low-word index of entry 129 is
0x112, which the 8-bit register offset cuts to 0x12, the low word of entry 1:
masking irq 129 changes the low word of entry 1 from 0x00000831 to 0x00010831,
so another entry is not left untouched. -/
theorem ioapic_mask_irq_in_range_touches_other_entry :
    ioapic_entries_supported wide_machine = 200 ∧
    129 < ioapic_entries_supported wide_machine ∧
    IOAPIC_IRQ_ENTRY_LO 129 = 0x112 ∧
    IOAPIC_IRQ_ENTRY_LO 1 = 0x12 ∧
    wide_machine.regs (IOAPIC_IRQ_ENTRY_LO 1) = 0x00000831 ∧
    (ioapic_mask_irq sample_dev 129 wide_machine).regs (IOAPIC_IRQ_ENTRY_LO 1) = 0x00010831 ∧
    (ioapic_mask_irq sample_dev 129 wide_machine).regs (IOAPIC_IRQ_ENTRY_LO 1) ≠
      wide_machine.regs (IOAPIC_IRQ_ENTRY_LO 1) := by
  decide

/-- C7 (amended): for every device and every irq within the supported range of
the device, ioapic_mask_irq followed by a read of the low word returns the
previous low word with bit 16 set: bit 16 is set and every other bit is as
before the call. When the irq is below 120, so that the indices of its entry
fit the 8-bit register offset, the high word of the entry and every other
internal register are untouched, and the operation is one read and one write
of the low word. -/
theorem ioapic_mask_irq_sets_bit16_only (dev : ioapic) (m : Machine) (irq : Nat)
    (hdec : m.decodes dev) (hsup : irq < ioapic_entries_supported m) :
    (ioapic_read_reg dev (IOAPIC_IRQ_ENTRY_LO irq) (ioapic_mask_irq dev irq m)).1 =
        (ioapic_read_reg dev (IOAPIC_IRQ_ENTRY_LO irq) m).1 ||| IOAPIC_MASK_IRQ ∧
    (ioapic_read_reg dev (IOAPIC_IRQ_ENTRY_LO irq) (ioapic_mask_irq dev irq m)).1.testBit 16
        = true ∧
    (∀ b : Nat, b ≠ 16 →
      (ioapic_read_reg dev (IOAPIC_IRQ_ENTRY_LO irq) (ioapic_mask_irq dev irq m)).1.testBit b =
        (ioapic_read_reg dev (IOAPIC_IRQ_ENTRY_LO irq) m).1.testBit b) ∧
    (irq < 120 →
      (ioapic_mask_irq dev irq m).regs (IOAPIC_IRQ_ENTRY_HI irq) =
          m.regs (IOAPIC_IRQ_ENTRY_HI irq) ∧
      (∀ r : Nat, r ≠ IOAPIC_IRQ_ENTRY_LO irq →
        (ioapic_mask_irq dev irq m).regs r = m.regs r) ∧
      (ioapic_mask_irq dev irq m).trace =
          m.trace ++ [Access.store dev.base (IOAPIC_IRQ_ENTRY_LO irq),
            Access.load ((dev.base + IOWIN_REG) % 2 ^ m.addrBits),
            Access.store dev.base (IOAPIC_IRQ_ENTRY_LO irq),
            Access.store ((dev.base + IOWIN_REG) % 2 ^ m.addrBits)
              ((ioapic_read_reg dev (IOAPIC_IRQ_ENTRY_LO irq) m).1 ||| IOAPIC_MASK_IRQ)]) := by
  have _ := hsup
  have hdec2 : (ioapic_mask_irq dev irq m).decodes dev := ioapic_mask_irq_decodes dev m irq hdec
  have hval : ∀ v : Nat, uint32_t (uint32_t v ||| IOAPIC_MASK_IRQ) =
      uint32_t v ||| IOAPIC_MASK_IRQ := by
    intro v
    apply Nat.mod_eq_of_lt
    exact Nat.or_lt_two_pow (Nat.mod_lt _ (by decide)) (by decide)
  have hafter :
      (ioapic_read_reg dev (IOAPIC_IRQ_ENTRY_LO irq) (ioapic_mask_irq dev irq m)).1 =
        uint32_t (m.regs (uint8_t (IOAPIC_IRQ_ENTRY_LO irq))) ||| IOAPIC_MASK_IRQ := by
    rw [ioapic_read_reg_val dev _ _ hdec2, ← entry_lo_index_uint8 irq,
      ioapic_mask_irq_low dev m irq hdec, hval]
    exact Nat.mod_eq_of_lt (Nat.or_lt_two_pow (Nat.mod_lt _ (by decide)) (by decide))
  have hbefore : (ioapic_read_reg dev (IOAPIC_IRQ_ENTRY_LO irq) m).1 =
      uint32_t (m.regs (uint8_t (IOAPIC_IRQ_ENTRY_LO irq))) :=
    ioapic_read_reg_val dev m _ hdec
  rw [hafter, hbefore]
  refine ⟨rfl, ?_, ?_, ?_⟩
  · rw [Nat.testBit_or, mask_irq_testBit]
    simp
  · intro b hb
    rw [Nat.testBit_or, mask_irq_testBit]
    simp [hb]
  · intro hirq
    have hi8 : uint8_t irq = irq := by
      unfold uint8_t
      omega
    have hlo8 := entry_lo_index_exact irq hirq
    have hne : IOAPIC_IRQ_ENTRY_HI irq ≠ IOAPIC_IRQ_ENTRY_LO irq := by
      unfold IOAPIC_IRQ_ENTRY_HI IOAPIC_IRQ_ENTRY_LO
      omega
    rw [ioapic_mask_irq_eq dev m irq hdec, hi8, hlo8, hval]
    refine ⟨by simp [hne], ?_, rfl⟩
    intro r hr
    simp [hr]

/-- C7 (amended) at a concrete input: masking entry 1 of the sample machine,
whose Version register reports 24 entries. -/
theorem ioapic_mask_irq_sets_bit16_only_witness :
    sample_machine.decodes sample_dev ∧ 1 < ioapic_entries_supported sample_machine ∧
    1 < 120 ∧
    (ioapic_read_reg sample_dev (IOAPIC_IRQ_ENTRY_LO 1)
        (ioapic_mask_irq sample_dev 1 sample_machine)).1 = 0x00010831 ∧
    (ioapic_read_reg sample_dev (IOAPIC_IRQ_ENTRY_LO 1) sample_machine).1 = 0x00000831 ∧
    (ioapic_read_reg sample_dev (IOAPIC_IRQ_ENTRY_LO 1)
        (ioapic_mask_irq sample_dev 1 sample_machine)).1 =
      (ioapic_read_reg sample_dev (IOAPIC_IRQ_ENTRY_LO 1) sample_machine).1 |||
        IOAPIC_MASK_IRQ ∧
    (ioapic_read_reg sample_dev (IOAPIC_IRQ_ENTRY_LO 1)
        (ioapic_mask_irq sample_dev 1 sample_machine)).1.testBit 16 = true ∧
    (ioapic_mask_irq sample_dev 1 sample_machine).regs (IOAPIC_IRQ_ENTRY_HI 1) =
        sample_machine.regs (IOAPIC_IRQ_ENTRY_HI 1) :=
  ⟨sample_decodes, by decide, by decide, by decide, by decide,
    (ioapic_mask_irq_sets_bit16_only sample_dev sample_machine 1
      sample_decodes (by decide)).1,
    (ioapic_mask_irq_sets_bit16_only sample_dev sample_machine 1
      sample_decodes (by decide)).2.1,
    ((ioapic_mask_irq_sets_bit16_only sample_dev sample_machine 1
      sample_decodes (by decide)).2.2.2 (by decide)).1⟩

/-! ## Programming an entry -/

/-- The low and high word of one entry select different registers, also after
conversion of the index to uint8_t. -/
theorem entry_hi_index_ne_lo (irq : Nat) :
    uint8_t (IOAPIC_IRQ_ENTRY_HI irq) ≠ uint8_t (IOAPIC_IRQ_ENTRY_LO irq) := by
  unfold uint8_t IOAPIC_IRQ_ENTRY_HI IOAPIC_IRQ_ENTRY_LO IOREDTBL
  omega

/-- The 8-bit conversion of the irq argument does not change the register the
high-word index selects. -/
theorem entry_hi_index_uint8 (irq : Nat) :
    uint8_t (IOAPIC_IRQ_ENTRY_HI (uint8_t irq)) = uint8_t (IOAPIC_IRQ_ENTRY_HI irq) := by
  unfold uint8_t IOAPIC_IRQ_ENTRY_HI IOREDTBL
  omega

/-- Bits kept from an old word and bits of a new value that lie outside the
kept positions: the combination is the new value exactly when nothing was
kept. -/
theorem kept_or_eq_iff (v c K : Nat) (hc : c &&& K = 0) :
    ((v &&& K) ||| c = c ↔ v &&& K = 0) := by
  constructor
  · intro h
    apply Nat.eq_of_testBit_eq
    intro b
    have h1 := congrArg (fun x => Nat.testBit x b) h
    have h2 := congrArg (fun x => Nat.testBit x b) hc
    simp only [Nat.testBit_or, Nat.testBit_and, Nat.zero_testBit] at h1 h2 ⊢
    cases hv : v.testBit b <;> cases hk : K.testBit b <;> cases hcb : c.testBit b <;>
      simp_all
  · intro h
    rw [h, Nat.zero_or]

/-- Kept bits of a 32-bit word combined with a 32-bit value are a 32-bit
word. -/
theorem kept_or_uint32 (v c K : Nat) (hc : c < 2 ^ 32) :
    uint32_t ((uint32_t v &&& K) ||| c) = (uint32_t v &&& K) ||| c := by
  apply Nat.mod_eq_of_lt
  apply Nat.or_lt_two_pow _ hc
  exact lt_of_le_of_lt Nat.and_le_left (Nat.mod_lt _ (by decide))

/-- The arguments of the sample programming request are valid for every irq
within the supported range. -/
theorem sample_request_valid (m : Machine) (irq : Nat)
    (hsup : irq < ioapic_entries_supported m) :
    ioapic_entry_args_valid m (uint8_t irq) (uint8_t 0x30) DELMODE_FIXED DESTMODE_PHYSICAL
      PIN_POLARITY_HI TRIGGER_MODE_EDGE 0x01 = true := by
  have h8 : uint8_t irq ≤ irq := Nat.mod_le _ _
  have hlt : uint8_t irq < ioapic_entries_supported m := lt_of_le_of_lt h8 hsup
  have hv : (16 : Nat) ≤ uint8_t 0x30 := by decide
  simp [ioapic_entry_args_valid, hlt, hv, DELMODE_FIXED, DESTMODE_PHYSICAL, DESTMODE_LOGICAL,
    PIN_POLARITY_HI, PIN_POLARITY_LO, TRIGGER_MODE_EDGE, TRIGGER_MODE_LEVEL, DELMODE_EXTINT]

/-- Outcome of the sample programming request on a decoded chip, for an irq
within the supported range: the call succeeds and the register bank differs
from the previous one in the two words of the entry only. -/
theorem sample_request_regs (dev : ioapic) (m : Machine) (irq : Nat)
    (hdec : m.decodes dev) (hsup : irq < ioapic_entries_supported m) :
    ∃ s : Machine,
      ioapic_program_entry dev irq 0x30 DELMODE_FIXED DESTMODE_PHYSICAL PIN_POLARITY_HI
        TRIGGER_MODE_EDGE 0x01 m = some s ∧
      s.decodes dev ∧
      s.regs = fun r =>
        if r = uint8_t (IOAPIC_IRQ_ENTRY_HI irq) then
          (uint32_t (m.regs (uint8_t (IOAPIC_IRQ_ENTRY_HI irq))) &&& not32 IORED_DST_MASK_LOG)
            ||| 0x01000000
        else if r = uint8_t (IOAPIC_IRQ_ENTRY_LO irq) then
          (uint32_t (m.regs (uint8_t (IOAPIC_IRQ_ENTRY_LO irq))) &&& not32 IORED_PROGRAMMED_LO)
            ||| 0x00000030
        else m.regs r := by
  have hlo : ioapic_entry_lo (uint8_t 0x30) DELMODE_FIXED DESTMODE_PHYSICAL PIN_POLARITY_HI
      TRIGGER_MODE_EDGE = 0x00000030 := by decide
  have hhi : ioapic_entry_hi DESTMODE_PHYSICAL 0x01 = 0x01000000 := by decide
  have hd1 : (ioapic_write_reg dev (IOAPIC_IRQ_ENTRY_LO (uint8_t irq))
      (((ioapic_read_reg dev (IOAPIC_IRQ_ENTRY_LO (uint8_t irq)) m).1 &&&
        not32 IORED_PROGRAMMED_LO) ||| 0x00000030)
      (ioapic_read_reg dev (IOAPIC_IRQ_ENTRY_LO (uint8_t irq)) m).2).decodes dev := by
    rw [read_modify_write_eq dev m _ (fun v => (v &&& not32 IORED_PROGRAMMED_LO) ||| 0x00000030)
      hdec]
    exact hdec
  have hprog : ioapic_program_entry dev irq 0x30 DELMODE_FIXED DESTMODE_PHYSICAL
      PIN_POLARITY_HI TRIGGER_MODE_EDGE 0x01 m =
      some (ioapic_write_reg dev (IOAPIC_IRQ_ENTRY_HI (uint8_t irq))
        (((ioapic_read_reg dev (IOAPIC_IRQ_ENTRY_HI (uint8_t irq))
            (ioapic_write_reg dev (IOAPIC_IRQ_ENTRY_LO (uint8_t irq))
              (((ioapic_read_reg dev (IOAPIC_IRQ_ENTRY_LO (uint8_t irq)) m).1 &&&
                not32 IORED_PROGRAMMED_LO) ||| 0x00000030)
              (ioapic_read_reg dev (IOAPIC_IRQ_ENTRY_LO (uint8_t irq)) m).2)).1 &&&
          not32 IORED_DST_MASK_LOG) ||| 0x01000000)
        (ioapic_read_reg dev (IOAPIC_IRQ_ENTRY_HI (uint8_t irq))
          (ioapic_write_reg dev (IOAPIC_IRQ_ENTRY_LO (uint8_t irq))
            (((ioapic_read_reg dev (IOAPIC_IRQ_ENTRY_LO (uint8_t irq)) m).1 &&&
              not32 IORED_PROGRAMMED_LO) ||| 0x00000030)
            (ioapic_read_reg dev (IOAPIC_IRQ_ENTRY_LO (uint8_t irq)) m).2)).2) := by
    unfold ioapic_program_entry
    simp only [sample_request_valid m irq hsup, if_true, hlo, hhi]
  refine ⟨_, hprog, ?_, ?_⟩
  · rw [read_modify_write_eq dev _ _ (fun v => (v &&& not32 IORED_DST_MASK_LOG) ||| 0x01000000)
      hd1]
    exact hd1
  · rw [read_modify_write_eq dev _ _ (fun v => (v &&& not32 IORED_DST_MASK_LOG) ||| 0x01000000)
      hd1,
      read_modify_write_eq dev m _ (fun v => (v &&& not32 IORED_PROGRAMMED_LO) ||| 0x00000030)
      hdec, entry_hi_index_uint8, entry_lo_index_uint8]
    funext r
    simp only [entry_hi_index_ne_lo irq, if_false]
    rw [kept_or_uint32 _ _ _ (by decide), kept_or_uint32 _ _ _ (by decide)]

/-- C9 (counterexample): entry 0 of the sample machine is masked, its low word
is 0x00010030. Programming it with vector 0x30, fixed delivery, physical
destination mode, active-high polarity, edge trigger and destination 0x01
succeeds, and the low word then reads back 0x00010030: the mask bit is kept by
the read-modify-write, so the low word is not 0x00000030. -/
theorem program_entry_keeps_mask_bit :
    0 < ioapic_entries_supported sample_machine ∧
    (ioapic_read_reg sample_dev (IOAPIC_IRQ_ENTRY_LO 0) sample_machine).1 = 0x00010030 ∧
    (ioapic_program_entry sample_dev 0 0x30 DELMODE_FIXED DESTMODE_PHYSICAL PIN_POLARITY_HI
      TRIGGER_MODE_EDGE 0x01 sample_machine).isSome = true ∧
    (ioapic_program_entry sample_dev 0 0x30 DELMODE_FIXED DESTMODE_PHYSICAL PIN_POLARITY_HI
      TRIGGER_MODE_EDGE 0x01 sample_machine).map
        (fun s => (ioapic_read_reg sample_dev (IOAPIC_IRQ_ENTRY_LO 0) s).1) =
      some 0x00010030 ∧
    (ioapic_program_entry sample_dev 0 0x30 DELMODE_FIXED DESTMODE_PHYSICAL PIN_POLARITY_HI
      TRIGGER_MODE_EDGE 0x01 sample_machine).map
        (fun s => (ioapic_read_reg sample_dev (IOAPIC_IRQ_ENTRY_LO 0) s).1) ≠
      some 0x00000030 := by
  decide

/-- C9 (amended): for every device and every irq within its supported range,
programming the entry with vector 0x30, delivery mode fixed, destination mode
physical, polarity active-high, trigger mode edge and destination 0x01
succeeds; the fields encode to 0x00000030 and 0x01000000 with the constants of
the header. Reading the low word and then the high word back through
ioapic_read_reg yields 0x00000030 combined with the bits of the previous low
word outside the programmed fields (bits 12, 14 and 16 to 31, the mask bit
among them), and 0x01000000 combined with the bits of the previous high word
outside the destination field (bits 0 to 23). The read-back is exactly
0x00000030 and 0x01000000 if and only if the previous words had none of those
bits set. -/
theorem program_entry_readback (dev : ioapic) (m : Machine) (irq : Nat)
    (hdec : m.decodes dev) (hsup : irq < ioapic_entries_supported m) :
    ioapic_entry_lo 0x30 DELMODE_FIXED DESTMODE_PHYSICAL PIN_POLARITY_HI TRIGGER_MODE_EDGE
        = 0x00000030 ∧
    ioapic_entry_hi DESTMODE_PHYSICAL 0x01 = 0x01000000 ∧
    not32 IORED_PROGRAMMED_LO = 0xffff5000 ∧
    not32 IORED_DST_MASK_LOG = 0x00ffffff ∧
    (ioapic_program_entry dev irq 0x30 DELMODE_FIXED DESTMODE_PHYSICAL PIN_POLARITY_HI
      TRIGGER_MODE_EDGE 0x01 m).isSome = true ∧
    (ioapic_program_entry dev irq 0x30 DELMODE_FIXED DESTMODE_PHYSICAL PIN_POLARITY_HI
      TRIGGER_MODE_EDGE 0x01 m).map
        (fun s => (ioapic_read_reg dev (IOAPIC_IRQ_ENTRY_LO irq) s).1) =
      some (((ioapic_read_reg dev (IOAPIC_IRQ_ENTRY_LO irq) m).1 &&&
        not32 IORED_PROGRAMMED_LO) ||| 0x00000030) ∧
    (ioapic_program_entry dev irq 0x30 DELMODE_FIXED DESTMODE_PHYSICAL PIN_POLARITY_HI
      TRIGGER_MODE_EDGE 0x01 m).map
        (fun s => (ioapic_read_reg dev (IOAPIC_IRQ_ENTRY_HI irq)
          (ioapic_read_reg dev (IOAPIC_IRQ_ENTRY_LO irq) s).2).1) =
      some (((ioapic_read_reg dev (IOAPIC_IRQ_ENTRY_HI irq) m).1 &&&
        not32 IORED_DST_MASK_LOG) ||| 0x01000000) ∧
    ((ioapic_program_entry dev irq 0x30 DELMODE_FIXED DESTMODE_PHYSICAL PIN_POLARITY_HI
      TRIGGER_MODE_EDGE 0x01 m).map
        (fun s => (ioapic_read_reg dev (IOAPIC_IRQ_ENTRY_LO irq) s).1) = some 0x00000030 ↔
      (ioapic_read_reg dev (IOAPIC_IRQ_ENTRY_LO irq) m).1 &&& not32 IORED_PROGRAMMED_LO = 0) ∧
    ((ioapic_program_entry dev irq 0x30 DELMODE_FIXED DESTMODE_PHYSICAL PIN_POLARITY_HI
      TRIGGER_MODE_EDGE 0x01 m).map
        (fun s => (ioapic_read_reg dev (IOAPIC_IRQ_ENTRY_HI irq)
          (ioapic_read_reg dev (IOAPIC_IRQ_ENTRY_LO irq) s).2).1) = some 0x01000000 ↔
      (ioapic_read_reg dev (IOAPIC_IRQ_ENTRY_HI irq) m).1 &&& not32 IORED_DST_MASK_LOG = 0) := by
  obtain ⟨s, hs, hds, hregs⟩ := sample_request_regs dev m irq hdec hsup
  have hd3 : (ioapic_read_reg dev (IOAPIC_IRQ_ENTRY_LO irq) s).2.decodes dev := by
    rw [ioapic_read_reg_eq dev s _ hds]
    exact hds
  have hregs3 : (ioapic_read_reg dev (IOAPIC_IRQ_ENTRY_LO irq) s).2.regs = s.regs := by
    rw [ioapic_read_reg_eq dev s _ hds]
  have hlow : (ioapic_read_reg dev (IOAPIC_IRQ_ENTRY_LO irq) s).1 =
      ((ioapic_read_reg dev (IOAPIC_IRQ_ENTRY_LO irq) m).1 &&& not32 IORED_PROGRAMMED_LO) |||
        0x00000030 := by
    rw [ioapic_read_reg_val dev s _ hds, ioapic_read_reg_val dev m _ hdec, hregs]
    simp only [Ne.symm (entry_hi_index_ne_lo irq), if_false, if_true]
    exact kept_or_uint32 _ _ _ (by decide)
  have hhigh : (ioapic_read_reg dev (IOAPIC_IRQ_ENTRY_HI irq)
      (ioapic_read_reg dev (IOAPIC_IRQ_ENTRY_LO irq) s).2).1 =
      ((ioapic_read_reg dev (IOAPIC_IRQ_ENTRY_HI irq) m).1 &&& not32 IORED_DST_MASK_LOG) |||
        0x01000000 := by
    rw [ioapic_read_reg_val dev _ _ hd3, ioapic_read_reg_val dev m _ hdec, hregs3, hregs]
    simp only [if_true]
    exact kept_or_uint32 _ _ _ (by decide)
  rw [hs]
  simp only [Option.map_some', Option.isSome_some, Option.some.injEq, hlow, hhigh]
  refine ⟨by decide, by decide, by decide, by decide, trivial, trivial, trivial, ?_, ?_⟩
  · exact kept_or_eq_iff _ _ _ (by decide)
  · exact kept_or_eq_iff _ _ _ (by decide)

/-- C9 (amended) at a concrete input: entry 1 of the sample machine, which is
within the 24 supported entries, is unmasked and has no bit set outside the
programmed fields; the read-back is 0x00000030 and 0x01000000. -/
theorem program_entry_readback_witness :
    sample_machine.decodes sample_dev ∧ 1 < ioapic_entries_supported sample_machine ∧
    (ioapic_read_reg sample_dev (IOAPIC_IRQ_ENTRY_LO 1) sample_machine).1 = 0x00000831 ∧
    (ioapic_program_entry sample_dev 1 0x30 DELMODE_FIXED DESTMODE_PHYSICAL PIN_POLARITY_HI
      TRIGGER_MODE_EDGE 0x01 sample_machine).isSome = true ∧
    (ioapic_program_entry sample_dev 1 0x30 DELMODE_FIXED DESTMODE_PHYSICAL PIN_POLARITY_HI
      TRIGGER_MODE_EDGE 0x01 sample_machine).map
        (fun s => (ioapic_read_reg sample_dev (IOAPIC_IRQ_ENTRY_LO 1) s).1) =
      some 0x00000030 ∧
    (ioapic_program_entry sample_dev 1 0x30 DELMODE_FIXED DESTMODE_PHYSICAL PIN_POLARITY_HI
      TRIGGER_MODE_EDGE 0x01 sample_machine).map
        (fun s => (ioapic_read_reg sample_dev (IOAPIC_IRQ_ENTRY_HI 1)
          (ioapic_read_reg sample_dev (IOAPIC_IRQ_ENTRY_LO 1) s).2).1) =
      some 0x01000000 :=
  ⟨sample_decodes, by decide, by decide,
    (program_entry_readback sample_dev sample_machine 1 sample_decodes (by decide)).2.2.2.2.1,
    (program_entry_readback sample_dev sample_machine 1 sample_decodes
      (by decide)).2.2.2.2.2.2.2.1.mpr (by decide),
    (program_entry_readback sample_dev sample_machine 1 sample_decodes
      (by decide)).2.2.2.2.2.2.2.2.mpr (by decide)⟩

/-! ## Width of the register-offset parameter -/

/-- C10: the register-offset parameter of the accessors is 8 bits wide, so the
Index register receives the offset modulo 256. For irq below 120 the low and
high index of the entry are below 256 and reach the Index register unchanged,
they are at least 0x10 (above the ID, Version and Arbitration registers), and
the index pairs of two distinct irqs below 120 are disjoint, as computed and as
received by the Index register. For an 8-bit irq
of 120 or more (here big) the Index register receives a value that differs from
0x10 + 2*irq (and from 0x10 + 2*irq + 1 for the high word) and is lower; for
irq 120 the low index selects register 0x00, the ID register. -/
theorem entry_index_fits_uint8_below_120 (dev : ioapic) (m : Machine) (irq j big val : Nat)
    (hdec : m.decodes dev) (hirq : irq < 120) (hj : j < 120) (hne : irq ≠ j)
    (hbig : 120 ≤ big) (hbig8 : big < 2 ^ 8) :
    (IOAPIC_IRQ_ENTRY_LO irq < 256 ∧ IOAPIC_IRQ_ENTRY_HI irq < 256) ∧
    (0x10 ≤ IOAPIC_IRQ_ENTRY_LO irq ∧ 0x10 ≤ IOAPIC_IRQ_ENTRY_HI irq ∧
      IOAPICID_REG < IOAPIC_IRQ_ENTRY_LO irq ∧ IOAPICVER_REG < IOAPIC_IRQ_ENTRY_LO irq ∧
      IOAPICARB_REG < IOAPIC_IRQ_ENTRY_LO irq) ∧
    ((ioapic_read_reg dev (IOAPIC_IRQ_ENTRY_LO irq) m).2.index = IOAPIC_IRQ_ENTRY_LO irq ∧
      (ioapic_read_reg dev (IOAPIC_IRQ_ENTRY_HI irq) m).2.index = IOAPIC_IRQ_ENTRY_HI irq ∧
      (ioapic_write_reg dev (IOAPIC_IRQ_ENTRY_LO irq) val m).index = IOAPIC_IRQ_ENTRY_LO irq ∧
      (ioapic_write_reg dev (IOAPIC_IRQ_ENTRY_HI irq) val m).index = IOAPIC_IRQ_ENTRY_HI irq) ∧
    (IOAPIC_IRQ_ENTRY_LO irq ≠ IOAPIC_IRQ_ENTRY_LO j ∧
      IOAPIC_IRQ_ENTRY_LO irq ≠ IOAPIC_IRQ_ENTRY_HI j ∧
      IOAPIC_IRQ_ENTRY_HI irq ≠ IOAPIC_IRQ_ENTRY_LO j ∧
      IOAPIC_IRQ_ENTRY_HI irq ≠ IOAPIC_IRQ_ENTRY_HI j ∧
      (ioapic_read_reg dev (IOAPIC_IRQ_ENTRY_LO irq) m).2.index ≠
        (ioapic_read_reg dev (IOAPIC_IRQ_ENTRY_LO j) m).2.index ∧
      (ioapic_read_reg dev (IOAPIC_IRQ_ENTRY_LO irq) m).2.index ≠
        (ioapic_read_reg dev (IOAPIC_IRQ_ENTRY_HI j) m).2.index ∧
      (ioapic_read_reg dev (IOAPIC_IRQ_ENTRY_HI irq) m).2.index ≠
        (ioapic_read_reg dev (IOAPIC_IRQ_ENTRY_LO j) m).2.index ∧
      (ioapic_read_reg dev (IOAPIC_IRQ_ENTRY_HI irq) m).2.index ≠
        (ioapic_read_reg dev (IOAPIC_IRQ_ENTRY_HI j) m).2.index) ∧
    ((ioapic_read_reg dev (IOAPIC_IRQ_ENTRY_LO big) m).2.index ≠ 0x10 + 2 * big ∧
      (ioapic_read_reg dev (IOAPIC_IRQ_ENTRY_LO big) m).2.index < 0x10 + 2 * big ∧
      (ioapic_write_reg dev (IOAPIC_IRQ_ENTRY_LO big) val m).index ≠ 0x10 + 2 * big ∧
      (ioapic_write_reg dev (IOAPIC_IRQ_ENTRY_LO big) val m).index < 0x10 + 2 * big ∧
      (ioapic_read_reg dev (IOAPIC_IRQ_ENTRY_HI big) m).2.index ≠ 0x10 + 2 * big + 1 ∧
      (ioapic_read_reg dev (IOAPIC_IRQ_ENTRY_HI big) m).2.index < 0x10 + 2 * big + 1 ∧
      (ioapic_write_reg dev (IOAPIC_IRQ_ENTRY_HI big) val m).index ≠ 0x10 + 2 * big + 1 ∧
      (ioapic_write_reg dev (IOAPIC_IRQ_ENTRY_HI big) val m).index < 0x10 + 2 * big + 1) ∧
    ((ioapic_read_reg dev (IOAPIC_IRQ_ENTRY_LO 120) m).2.index = IOAPICID_REG ∧
      (ioapic_write_reg dev (IOAPIC_IRQ_ENTRY_LO 120) val m).index = IOAPICID_REG) := by
  have hr : ∀ reg : Nat, (ioapic_read_reg dev reg m).2.index = reg % 256 := by
    intro reg
    rw [ioapic_read_reg_eq dev m reg hdec]
    rfl
  have hw : ∀ reg : Nat, (ioapic_write_reg dev reg val m).index = reg % 256 := by
    intro reg
    rw [ioapic_write_reg_eq dev m reg val hdec]
    rfl
  simp only [hr, hw]
  unfold IOAPIC_IRQ_ENTRY_LO IOAPIC_IRQ_ENTRY_HI IOREDTBL IOAPICID_REG IOAPICVER_REG
    IOAPICARB_REG
  norm_num at hbig8
  refine ⟨⟨?_, ?_⟩, ⟨?_, ?_, ?_, ?_, ?_⟩, ⟨?_, ?_, ?_, ?_⟩, ⟨?_, ?_, ?_, ?_, ?_, ?_, ?_, ?_⟩,
    ⟨?_, ?_, ?_, ?_, ?_, ?_, ?_, ?_⟩, ⟨?_, ?_⟩⟩ <;> omega

/-- C10 at a concrete input: irqs 23 and 0 below 120, irq 200 above, on the
sample machine; irq 200 selects register 0xa0 instead of 0x1a0. -/
theorem entry_index_fits_uint8_below_120_witness :
    sample_machine.decodes sample_dev ∧ 23 < 120 ∧ 0 < 120 ∧ 23 ≠ 0 ∧ 120 ≤ 200 ∧
    200 < 2 ^ 8 ∧
    (ioapic_read_reg sample_dev (IOAPIC_IRQ_ENTRY_LO 23) sample_machine).2.index
      = IOAPIC_IRQ_ENTRY_LO 23 ∧
    (ioapic_read_reg sample_dev (IOAPIC_IRQ_ENTRY_LO 200) sample_machine).2.index = 0xa0 ∧
    (ioapic_read_reg sample_dev (IOAPIC_IRQ_ENTRY_LO 200) sample_machine).2.index
      ≠ 0x10 + 2 * 200 ∧
    (ioapic_read_reg sample_dev (IOAPIC_IRQ_ENTRY_LO 120) sample_machine).2.index
      = IOAPICID_REG :=
  ⟨sample_decodes, by decide, by decide, by decide, by decide, by decide,
    (entry_index_fits_uint8_below_120 sample_dev sample_machine 23 0 200 0 sample_decodes
      (by decide) (by decide) (by decide) (by decide) (by decide)).2.2.1.1,
    by decide,
    (entry_index_fits_uint8_below_120 sample_dev sample_machine 23 0 200 0 sample_decodes
      (by decide) (by decide) (by decide) (by decide) (by decide)).2.2.2.2.1.1,
    (entry_index_fits_uint8_below_120 sample_dev sample_machine 23 0 200 0 sample_decodes
      (by decide) (by decide) (by decide) (by decide) (by decide)).2.2.2.2.2.1⟩
